import Mathlib

namespace TranslateSpec

/-- Model of a JavaScript/JSON runtime value, rich enough for the response
bodies this component dereferences. -/
inductive JSVal where
  | undef
  | null
  | str (s : String)
  | num (n : Int)
  | arr (elems : List JSVal)
  | obj (fields : List (String × JSVal))

/-- JS property access `v.k`: throws a TypeError on `undefined`/`null`,
yields `undefined` for a missing key, looks fields up on objects. -/
def JSVal.getProp : JSVal → String → Except Unit JSVal
  | JSVal.undef, _ => Except.error ()
  | JSVal.null, _ => Except.error ()
  | JSVal.obj fields, k =>
      match fields.lookup k with
      | some v => Except.ok v
      | none => Except.ok JSVal.undef
  | JSVal.arr _, _ => Except.ok JSVal.undef
  | JSVal.str _, _ => Except.ok JSVal.undef
  | JSVal.num _, _ => Except.ok JSVal.undef

/-- JS index access `v[i]`: throws on `undefined`/`null`, indexes arrays
(out of range gives `undefined`). -/
def JSVal.getIndex : JSVal → Nat → Except Unit JSVal
  | JSVal.undef, _ => Except.error ()
  | JSVal.null, _ => Except.error ()
  | JSVal.arr elems, i => Except.ok (elems.getD i JSVal.undef)
  | JSVal.obj fields, i =>
      match fields.lookup (toString i) with
      | some v => Except.ok v
      | none => Except.ok JSVal.undef
  | JSVal.str _, _ => Except.ok JSVal.undef
  | JSVal.num _, _ => Except.ok JSVal.undef

mutual

/-- JS string coercion `String(v)`, as used for object property keys. -/
def jsToString : JSVal → String
  | JSVal.undef => "undefined"
  | JSVal.null => "null"
  | JSVal.str s => s
  | JSVal.num n => toString n
  | JSVal.arr elems => jsArrToString elems
  | JSVal.obj _ => "[object Object]"

/-- Array elements coerce with `undefined`/`null` rendered empty. -/
def jsElemToString : JSVal → String
  | JSVal.undef => ""
  | JSVal.null => ""
  | JSVal.str s => s
  | JSVal.num n => toString n
  | JSVal.arr elems => jsArrToString elems
  | JSVal.obj _ => "[object Object]"

/-- JS array-to-string coercion: elements joined with commas. -/
def jsArrToString : List JSVal → String
  | [] => ""
  | [v] => jsElemToString v
  | v :: w :: rest => jsElemToString v ++ "," ++ jsArrToString (w :: rest)

end

/-- JS loose equality test against null (`v == null`): true exactly for
`null` and `undefined`. -/
def isLooseNull : JSVal → Bool
  | JSVal.null => true
  | JSVal.undef => true
  | _ => false

/-- JS strict equality `v === null`. -/
def isStrictNull : JSVal → Bool
  | JSVal.null => true
  | _ => false

/-- JS strict equality of a value against a string literal (`v === "s"`). -/
def strictEqStr (v : JSVal) (s : String) : Bool :=
  match v with
  | JSVal.str t => t == s
  | _ => false

/-- Is `needle` a prefix of the character list? -/
def charsLeading : List Char → List Char → Bool
  | [], _ => true
  | _ :: _, [] => false
  | c :: cs, d :: ds => c == d && charsLeading cs ds

/-- Does the character list contain `needle` as a contiguous run? -/
def charsContain (needle : List Char) : List Char → Bool
  | [] => charsLeading needle []
  | c :: rest => charsLeading needle (c :: rest) || charsContain needle rest

/-- JS `hay.includes(needle)` substring test. -/
def strIncludes (hay needle : String) : Bool :=
  charsContain needle.data hay.data

/-- JS `s.toLowerCase()`, modelled characterwise. -/
def strToLower (s : String) : String :=
  String.mk (s.data.map Char.toLower)

example : strIncludes "i like the cake" " the " = true := by decide
example : strIncludes "bonjour" " the " = false := by decide
example : jsToString (JSVal.arr [JSVal.str "fr"]) = "fr" := by decide
example : strictEqStr (JSVal.str "und") "und" = true := by decide
example : strToLower "The CAKE" = "the cake" := by decide

/-! ## Shared constants (identical in both source variants) -/

/-- `const liltMaxPolls = 20;` -/
def liltMaxPolls : Nat := 20

/-- `const liltMemories = { "fr": 69501, "de": 69706 };` -/
def liltMemories : List (String × Nat) := [("fr", 69501), ("de", 69706)]

/-! ## HTTP interaction model

The workflow talks to the service through `fetch`. Each call hits one of
five endpoints; the two polling endpoints are called repeatedly, so a
request is identified by its endpoint and, for polls, by the ordinal of
the call (0-based issue order). An environment assigns a response to
every possible request; a run of the workflow consults it sequentially. -/

/-- Which polling endpoint a generic poll loop is driving. -/
inductive Phase where
  | checkUpload
  | checkTranslate
deriving DecidableEq

/-- A request the workflow can issue, with poll requests numbered by
issue order. -/
inductive ReqKind where
  | upload
  | checkUpload (n : Nat)
  | translate
  | checkTranslate (n : Nat)
  | download
deriving DecidableEq

/-- A service response: HTTP success flag, the result of `.json()`
(`Except.error` models a body that is not valid JSON, so that `.json()`
rejects), and the result of `.text()`. -/
structure HttpResponse where
  ok : Bool
  jsonBody : Except Unit JSVal
  textBody : String

/-- The service, as an oracle from requests to responses. -/
abbrev Env := ReqKind → HttpResponse

/-- One constructor per `console.warn` site in the two variants.
`unsupported` carries the interpolated detected-language value of
`Not set up to translate from ...`. -/
inductive Warning where
  | uploadFailed
  | checkUploadFailed
  | noDetection
  | unsupported (lang : JSVal)
  | translateFailed
  | checkTranslateFailed
  | downloadFailed
  | pollFailed (p : Phase)
  | pollGaveUp (p : Phase)
  | undetectedUnd

/-- How a polling loop ends: an exception escaped, the enclosing function
returned null, or the loop finished and control continues with a value. -/
inductive LoopOut where
  | thrown
  | returnedNull
  | finished (v : JSVal)

/-- The UI `Status` enum. -/
inductive Status where
  | Ready
  | Translating
  | Translated
  | Failed
deriving DecidableEq

/-- The component state touched by the click handler. -/
structure UIState where
  status : Status
  translation : Option String

/-- The `onTranslateThisClick` handler: set `Translating`, await
`liltTranslate` (whose outcome is `Except.error` if it threw, otherwise
the returned string-or-null), then set `Translated`/`Failed`.  If the
awaited call throws, the async handler aborts after the initial
`setStatus(Status.Translating)`. -/
def applyClick (st : UIState) (result : Except Unit (Option String)) : UIState :=
  match result with
  | Except.error _ => { st with status := Status.Translating }
  | Except.ok (some t) => { status := Status.Translated, translation := some t }
  | Except.ok none => { status := Status.Failed, translation := none }

/-- `(json)[0].detected_lang`, the check-upload extraction both variants
perform on the poll response body. -/
def extractDetectedLang (json : JSVal) : Except Unit JSVal :=
  match json.getIndex 0 with
  | Except.error e => Except.error e
  | Except.ok first => first.getProp "detected_lang"

/-- `(json)[0].id`, the extraction both variants perform on the translate
response body. -/
def extractFirstId (json : JSVal) : Except Unit JSVal :=
  match json.getIndex 0 with
  | Except.error e => Except.error e
  | Except.ok first => first.getProp "id"

/-! ## Fixed-delay variant: `src/components/views/messages/TranslateThis.tsx` -/

namespace Fixed

/-- `const liltPollTimeMs = 1000;` (fixed-delay variant). -/
def liltPollTimeMs : Nat := 1000

/-- The fixed-delay variant's `liltShouldOfferTranslation`: offer to
translate all messages that were not sent by us; the text is unused. -/
def liltShouldOfferTranslation (messageSender currentUser : String)
    (_messageText : String) : Bool :=
  messageSender != currentUser

/-- The exported `shouldOfferTranslation` wrapper of this variant. -/
def shouldOfferTranslation (messageSender currentUser messageText : String) : Bool :=
  liltShouldOfferTranslation messageSender currentUser messageText

/-- The two polling `while` loops of the fixed-delay `liltTranslate`
(check upload and check translation have the same shape).  `tries` is the
source's counter (`checkUploadTries`/`checkTranslateTries`), incremented
after each fetch, with `if (tries >= liltMaxPolls) break;` deciding
exhaustion; `again` is the `while` condition on the freshly extracted
value.  `fuel` only exhibits termination: every call site passes
`fuel = liltMaxPolls`, which the counter check never lets run out, so the
fuel-exhaustion arm is unreachable there. -/
def pollLoop (env : Env) (mkReq : Nat → ReqKind) (extract : JSVal → Except Unit JSVal)
    (again : JSVal → Bool) (failWarn : Warning) (tries fuel : Nat) :
    List ReqKind × List Warning × LoopOut :=
  match fuel with
  | 0 => ([], [], LoopOut.thrown)
  | Nat.succ fuel2 =>
    let req := mkReq tries
    let r := env req
    if r.ok then
      match r.jsonBody with
      | Except.error _ => ([req], [], LoopOut.thrown)
      | Except.ok json =>
        match extract json with
        | Except.error _ => ([req], [], LoopOut.thrown)
        | Except.ok v =>
          if liltMaxPolls ≤ tries + 1 then
            ([req], [], LoopOut.finished v)
          else if again v then
            let rest := pollLoop env mkReq extract again failWarn (tries + 1) fuel2
            (req :: rest.1, rest.2.1, rest.2.2)
          else
            ([req], [], LoopOut.finished v)
    else ([req], [failWarn], LoopOut.returnedNull)

/-- Lines 165–210 of the fixed-delay variant: control flow from a bound
`detectedLang` through the `liltMemories` membership test, the translate
request, the check-translate polling loop and the download.  (The looked
up `memoryId` itself only feeds the request URL, which the request model
identifies by endpoint.)  Returns the requests issued, the warnings
logged and the outcome; `Except.error ()` models an escaped exception. -/
def liltTranslateFrom (env : Env) (detectedLang : JSVal) :
    List ReqKind × List Warning × Except Unit (Option String) :=
  if (liltMemories.lookup (jsToString detectedLang)).isSome then
    let rT := env ReqKind.translate
    if rT.ok then
      match rT.jsonBody with
      | Except.error _ => ([ReqKind.translate], [], Except.error ())
      | Except.ok jT =>
        match extractFirstId jT with
        | Except.error _ => ([ReqKind.translate], [], Except.error ())
        | Except.ok _translationId =>
          let loop := pollLoop env ReqKind.checkTranslate (fun j => j.getProp "status")
              (fun v => !strictEqStr v "ReadyForDownload") Warning.checkTranslateFailed 0 liltMaxPolls
          match loop.2.2 with
          | LoopOut.thrown => (ReqKind.translate :: loop.1, loop.2.1, Except.error ())
          | LoopOut.returnedNull => (ReqKind.translate :: loop.1, loop.2.1, Except.ok none)
          | LoopOut.finished _translateStatus =>
            let rD := env ReqKind.download
            if rD.ok then
              (ReqKind.translate :: loop.1 ++ [ReqKind.download], loop.2.1,
                Except.ok (some rD.textBody))
            else
              (ReqKind.translate :: loop.1 ++ [ReqKind.download],
                loop.2.1 ++ [Warning.downloadFailed], Except.ok none)
    else ([ReqKind.translate], [Warning.translateFailed], Except.ok none)
  else
    ([], [if isStrictNull detectedLang then Warning.noDetection
          else Warning.unsupported detectedLang], Except.ok none)

/-- The fixed-delay variant's `liltTranslate`.  Returns the ordered
request trace, the warnings logged, and the outcome: `Except.error ()`
when a JS exception escapes, otherwise the string-or-null result. -/
def liltTranslate (env : Env) : List ReqKind × List Warning × Except Unit (Option String) :=
  let rU := env ReqKind.upload
  if rU.ok then
    match rU.jsonBody with
    | Except.error _ => ([ReqKind.upload], [], Except.error ())
    | Except.ok jU =>
      match jU.getProp "id" with
      | Except.error _ => ([ReqKind.upload], [], Except.error ())
      | Except.ok _fileId =>
        let loop := pollLoop env ReqKind.checkUpload extractDetectedLang isLooseNull
            Warning.checkUploadFailed 0 liltMaxPolls
        match loop.2.2 with
        | LoopOut.thrown => (ReqKind.upload :: loop.1, loop.2.1, Except.error ())
        | LoopOut.returnedNull => (ReqKind.upload :: loop.1, loop.2.1, Except.ok none)
        | LoopOut.finished detectedLang =>
          let rest := liltTranslateFrom env detectedLang
          (ReqKind.upload :: loop.1 ++ rest.1, loop.2.1 ++ rest.2.1, rest.2.2)
  else ([ReqKind.upload], [Warning.uploadFailed], Except.ok none)

end Fixed

/-! ## Backoff variant: `src/unnamed/part_001` -/

namespace Backoff

/-- `const liltPollTimeMs = 100;` (backoff variant). -/
def liltPollTimeMs : Nat := 100

/-- `sleepTime(pollNumber) = liltPollTimeMs * Math.min(32, Math.pow(2, pollNumber + 1))`. -/
def sleepTime (pollNumber : Nat) : Nat :=
  liltPollTimeMs * min 32 (2 ^ (pollNumber + 1))

/-- `const englishSegments = [...]` (backoff variant only). -/
def englishSegments : List String :=
  [" all ", " and ", " from ", " had ", " has ",
   " thanks ", " that ", " the ", " this ", " yeah "]

/-- The backoff variant's `liltShouldOfferTranslation`: lowercase the
text and refuse as soon as any hard-coded English segment occurs in it. -/
def liltShouldOfferTranslation (messageText : String) : Bool :=
  let lc := strToLower messageText
  englishSegments.all (fun segment => !strIncludes lc (strToLower segment))

/-- The backoff variant's exported `shouldOfferTranslation`: not our own
message, and the translation code finds the text plausible to translate. -/
def shouldOfferTranslation (messageSender currentUser messageText : String) : Bool :=
  messageSender != currentUser && liltShouldOfferTranslation messageText

/-- `checkResponse` for the check-upload poll:
`(json) => json[0].detected_lang ?? null` (nullish coalescing maps both
`undefined` and `null` to `null`). -/
def checkUploadResponse (json : JSVal) : Except Unit JSVal :=
  match extractDetectedLang json with
  | Except.error e => Except.error e
  | Except.ok v => Except.ok (if isLooseNull v then JSVal.null else v)

/-- `checkResponse` for the check-translate poll:
`(json) => json[0].status === "ReadyForDownload" ? json[0].status : null`. -/
def checkTranslateResponse (json : JSVal) : Except Unit JSVal :=
  match json.getIndex 0 with
  | Except.error e => Except.error e
  | Except.ok first =>
    match first.getProp "status" with
    | Except.error e => Except.error e
    | Except.ok s =>
      if strictEqStr s "ReadyForDownload" then Except.ok s else Except.ok JSVal.null

/-- The backoff variant's `pollFor` loop.  The source's `for` loop
initializes `numPolls = 0` and tests `numPolls < liltMaxPolls`, but
besides the `for`-update `numPolls++` it also runs `numPolls++` at the
end of the loop body, so `numPolls` advances by two per fetch — modelled
by the `(numPolls + 1) + 1` recursive call.  `k` numbers the issued
requests in order; `fuel` only exhibits termination and starts at
`liltMaxPolls`, which the `numPolls` guard leaves strictly positive, so
the fuel-exhaustion arm is unreachable from `pollFor`. -/
def pollForAux (env : Env) (mkReq : Nat → ReqKind) (check : JSVal → Except Unit JSVal)
    (phase : Phase) (numPolls k fuel : Nat) : List ReqKind × List Warning × LoopOut :=
  if numPolls < liltMaxPolls then
    match fuel with
    | 0 => ([], [], LoopOut.thrown)
    | Nat.succ fuel2 =>
      let req := mkReq k
      let r := env req
      if r.ok then
        match r.jsonBody with
        | Except.error _ => ([req], [], LoopOut.thrown)
        | Except.ok json =>
          match check json with
          | Except.error _ => ([req], [], LoopOut.thrown)
          | Except.ok answer =>
            if isStrictNull answer then
              let rest := pollForAux env mkReq check phase ((numPolls + 1) + 1) (k + 1) fuel2
              (req :: rest.1, rest.2.1, rest.2.2)
            else ([req], [], LoopOut.finished answer)
      else ([req], [Warning.pollFailed phase], LoopOut.returnedNull)
  else ([], [Warning.pollGaveUp phase], LoopOut.returnedNull)

/-- `pollFor(url, headers, checkResponse)`: fetch repeatedly until
`checkResponse` yields non-null, giving up once `numPolls` reaches
`liltMaxPolls`. -/
def pollFor (env : Env) (mkReq : Nat → ReqKind) (check : JSVal → Except Unit JSVal)
    (phase : Phase) : List ReqKind × List Warning × LoopOut :=
  pollForAux env mkReq check phase 0 0 liltMaxPolls

/-- Lines 211–252 of the backoff variant: control flow from a bound
`detectedLang` through the `"und"` test, the `liltMemories` lookup with
its JS-truthiness test `if (!memoryId)`, the translate request, the
check-translate `pollFor` and the download. -/
def liltTranslateFrom (env : Env) (detectedLang : JSVal) :
    List ReqKind × List Warning × Except Unit (Option String) :=
  if strictEqStr detectedLang "und" then
    ([], [Warning.undetectedUnd], Except.ok none)
  else
    let memoryTruthy := match liltMemories.lookup (jsToString detectedLang) with
      | none => false
      | some m => m != 0
    if memoryTruthy then
      let rT := env ReqKind.translate
      if rT.ok then
        match rT.jsonBody with
        | Except.error _ => ([ReqKind.translate], [], Except.error ())
        | Except.ok jT =>
          match extractFirstId jT with
          | Except.error _ => ([ReqKind.translate], [], Except.error ())
          | Except.ok _translationId =>
            let loop := pollFor env ReqKind.checkTranslate checkTranslateResponse Phase.checkTranslate
            match loop.2.2 with
            | LoopOut.thrown => (ReqKind.translate :: loop.1, loop.2.1, Except.error ())
            | LoopOut.returnedNull =>
              (ReqKind.translate :: loop.1, loop.2.1, Except.ok none)
            | LoopOut.finished translationStatus =>
              if strictEqStr translationStatus "ReadyForDownload" then
                let rD := env ReqKind.download
                if rD.ok then
                  (ReqKind.translate :: loop.1 ++ [ReqKind.download], loop.2.1,
                    Except.ok (some rD.textBody))
                else
                  (ReqKind.translate :: loop.1 ++ [ReqKind.download],
                    loop.2.1 ++ [Warning.downloadFailed], Except.ok none)
              else (ReqKind.translate :: loop.1, loop.2.1, Except.ok none)
      else ([ReqKind.translate], [Warning.translateFailed], Except.ok none)
    else
      ([], [if isStrictNull detectedLang then Warning.noDetection
            else Warning.unsupported detectedLang], Except.ok none)

/-- The backoff variant's `liltTranslate`.  When the check-upload
`pollFor` returns null (failed poll or exhausted budget), execution
continues with `detectedLang = null` rather than aborting there. -/
def liltTranslate (env : Env) : List ReqKind × List Warning × Except Unit (Option String) :=
  let rU := env ReqKind.upload
  if rU.ok then
    match rU.jsonBody with
    | Except.error _ => ([ReqKind.upload], [], Except.error ())
    | Except.ok jU =>
      match jU.getProp "id" with
      | Except.error _ => ([ReqKind.upload], [], Except.error ())
      | Except.ok _fileId =>
        let loop := pollFor env ReqKind.checkUpload checkUploadResponse Phase.checkUpload
        match loop.2.2 with
        | LoopOut.thrown => (ReqKind.upload :: loop.1, loop.2.1, Except.error ())
        | LoopOut.returnedNull =>
          let rest := liltTranslateFrom env JSVal.null
          (ReqKind.upload :: loop.1 ++ rest.1, loop.2.1 ++ rest.2.1, rest.2.2)
        | LoopOut.finished detectedLang =>
          let rest := liltTranslateFrom env detectedLang
          (ReqKind.upload :: loop.1 ++ rest.1, loop.2.1 ++ rest.2.1, rest.2.2)
  else ([ReqKind.upload], [Warning.uploadFailed], Except.ok none)

end Backoff

/-! ## Concrete service behaviours used as witnesses and counterexamples -/

/-- A 2xx response carrying the given JSON body. -/
def okJson (v : JSVal) : HttpResponse := ⟨true, Except.ok v, ""⟩

/-- A check-upload response body `[{"detected_lang": lang}]`, the shape
both variants read (`json[0].detected_lang`). -/
def detectBody (lang : JSVal) : JSVal :=
  JSVal.arr [JSVal.obj [("detected_lang", lang)]]

/-- A check-translate response body `[{"status": s}]`, the shape the
backoff variant reads (`json[0].status`); on it the fixed variant's
`json.status` reads `undefined`, which it treats as not ready. -/
def statusArrBody (s : String) : JSVal :=
  JSVal.arr [JSVal.obj [("status", JSVal.str s)]]

/-- Service run where everything succeeds immediately; the check-translate
body is the object shape `{"status": ...}` the fixed variant reads. -/
def envFixedHappy : Env
  | ReqKind.upload => okJson (JSVal.obj [("id", JSVal.num 7)])
  | ReqKind.checkUpload _ => okJson (detectBody (JSVal.str "fr"))
  | ReqKind.translate => okJson (JSVal.arr [JSVal.obj [("id", JSVal.num 9)]])
  | ReqKind.checkTranslate _ => okJson (JSVal.obj [("status", JSVal.str "ReadyForDownload")])
  | ReqKind.download => ⟨true, Except.ok JSVal.null, "BONJOUR"⟩

/-- Service run where everything succeeds immediately; the check-translate
body is the array shape `[{"status": ...}]` the backoff variant reads. -/
def envBackoffHappy : Env
  | ReqKind.upload => okJson (JSVal.obj [("id", JSVal.num 7)])
  | ReqKind.checkUpload _ => okJson (detectBody (JSVal.str "fr"))
  | ReqKind.translate => okJson (JSVal.arr [JSVal.obj [("id", JSVal.num 9)]])
  | ReqKind.checkTranslate _ => okJson (statusArrBody "ReadyForDownload")
  | ReqKind.download => ⟨true, Except.ok JSVal.null, "BONJOUR"⟩

/-- Service run parameterized by the detected-language value, which every
check-upload poll reports; all requests succeed and the translation is
ready at once (in the shape readable by both variants). -/
def envDetect (lang : JSVal) : Env
  | ReqKind.upload => okJson (JSVal.obj [("id", JSVal.num 7)])
  | ReqKind.checkUpload _ => okJson (detectBody lang)
  | ReqKind.translate => okJson (JSVal.arr [JSVal.obj [("id", JSVal.num 9)]])
  | ReqKind.checkTranslate _ => okJson (statusArrBody "ReadyForDownload")
  | ReqKind.download => ⟨true, Except.ok JSVal.null, "BONJOUR"⟩

/-- Service run where the upload request fails (non-2xx). -/
def envUploadFail : Env
  | ReqKind.upload => ⟨false, Except.ok JSVal.null, ""⟩
  | _ => okJson JSVal.null

/-- Service run where detection yields "fr" but the translation status
never reaches the ready sentinel; every request is 2xx. -/
def envStuck : Env
  | ReqKind.upload => okJson (JSVal.obj [("id", JSVal.num 7)])
  | ReqKind.checkUpload _ => okJson (detectBody (JSVal.str "fr"))
  | ReqKind.translate => okJson (JSVal.arr [JSVal.obj [("id", JSVal.num 9)]])
  | ReqKind.checkTranslate _ => okJson (statusArrBody "InProgress")
  | ReqKind.download => ⟨true, Except.ok JSVal.null, "BONJOUR"⟩

/-- Service run where the upload succeeds but every check-upload response
body is the empty array `[]`, so `json[0]` is `undefined` and
`json[0].detected_lang` throws a TypeError in both variants. -/
def envEmptyArr : Env
  | ReqKind.upload => okJson (JSVal.obj [("id", JSVal.num 7)])
  | ReqKind.checkUpload _ => okJson (JSVal.arr [])
  | _ => okJson JSVal.null

example : (Fixed.liltTranslate envFixedHappy).2.2 = Except.ok (some "BONJOUR") := rfl
example : (Fixed.liltTranslate envFixedHappy).1 =
    [ReqKind.upload, ReqKind.checkUpload 0, ReqKind.translate,
     ReqKind.checkTranslate 0, ReqKind.download] := rfl
example : (Backoff.liltTranslate envBackoffHappy).2.2 = Except.ok (some "BONJOUR") := rfl
example : (Backoff.liltTranslate envBackoffHappy).1 =
    [ReqKind.upload, ReqKind.checkUpload 0, ReqKind.translate,
     ReqKind.checkTranslate 0, ReqKind.download] := rfl
example : (Fixed.liltTranslate (envDetect JSVal.null)).1.length = 21 := rfl
example : (Backoff.liltTranslate (envDetect JSVal.null)).1.length = 11 := rfl
example : (Fixed.liltTranslate (envDetect JSVal.null)).2.2 = Except.ok none := rfl
example : (Backoff.liltTranslate (envDetect JSVal.null)).2.2 = Except.ok none := rfl
example : (Fixed.liltTranslate (envDetect (JSVal.str "und"))).2.1 =
    [Warning.unsupported (JSVal.str "und")] := rfl
example : (Backoff.liltTranslate (envDetect (JSVal.str "und"))).2.1 =
    [Warning.undetectedUnd] := rfl
example : (Fixed.liltTranslate envStuck).2.2 = Except.ok (some "BONJOUR") := rfl
example : (Backoff.liltTranslate envStuck).2.2 = Except.ok none := rfl
example : (Fixed.liltTranslate envEmptyArr).2.2 = Except.error () := rfl
example : (Backoff.liltTranslate envEmptyArr).2.2 = Except.error () := rfl
example : (Fixed.liltTranslate envUploadFail).2.1 = [Warning.uploadFailed] := rfl

/-! ## Helper lemmas about the polling loops -/

/-- The `n` requests a polling loop issues, starting at issue ordinal `a`. -/
def reqSeq (mkReq : Nat → ReqKind) (a : Nat) : Nat → List ReqKind
  | 0 => []
  | Nat.succ n => mkReq a :: reqSeq mkReq (a + 1) n

theorem reqSeq_length (mkReq : Nat → ReqKind) :
    ∀ (n a : Nat), (reqSeq mkReq a n).length = n := by
  intro n
  induction n with
  | zero => intro a; rfl
  | succ n ih => intro a; simp [reqSeq, ih (a + 1)]

theorem reqSeq_mem {mkReq : Nat → ReqKind} :
    ∀ {n a : Nat} {r : ReqKind}, r ∈ reqSeq mkReq a n → ∃ i, i < n ∧ r = mkReq (a + i) := by
  intro n
  induction n with
  | zero => intro a r h; simp [reqSeq] at h
  | succ n ih =>
    intro a r h
    simp only [reqSeq, List.mem_cons] at h
    rcases h with h | h
    · exact ⟨0, by omega, by simpa using h⟩
    · obtain ⟨i, hi, he⟩ := ih h
      exact ⟨i + 1, by omega, by rw [he]; congr 1; omega⟩

/-- A fixed-delay polling loop whose `while` condition stays true at the
polls before step `M` reaches step `M` and finishes with its value,
either because the condition turned false there or because the counter
budget broke the loop there. -/
theorem pollLoop_finishes (env : Env) (mkReq : Nat → ReqKind)
    (extract : JSVal → Except Unit JSVal) (again : JSVal → Bool) (failWarn : Warning)
    (j v : Nat → JSVal) (M tries fuel : Nat)
    (hok : ∀ i, i ≤ M → (env (mkReq (tries + i))).ok = true)
    (hjson : ∀ i, i ≤ M → (env (mkReq (tries + i))).jsonBody = Except.ok (j (tries + i)))
    (hext : ∀ i, i ≤ M → extract (j (tries + i)) = Except.ok (v (tries + i)))
    (hagain : ∀ i, i < M → again (v (tries + i)) = true)
    (hbound : tries + M + 1 ≤ liltMaxPolls)
    (hstop : again (v (tries + M)) = false ∨ tries + M + 1 = liltMaxPolls)
    (hfuel : M < fuel) :
    Fixed.pollLoop env mkReq extract again failWarn tries fuel =
      (reqSeq mkReq tries (M + 1), [], LoopOut.finished (v (tries + M))) := by
  have hmax : liltMaxPolls = 20 := rfl
  revert hok hjson hext hagain hbound hstop hfuel
  induction M generalizing tries fuel with
  | zero =>
    intro hok hjson hext hagain hbound hstop hfuel
    obtain ⟨f, rfl⟩ : ∃ f, fuel = f + 1 := ⟨fuel - 1, by omega⟩
    have h1 := hok 0 (by omega)
    have h2 := hjson 0 (by omega)
    have h3 := hext 0 (by omega)
    simp only [Nat.add_zero] at h1 h2 h3
    simp only [Fixed.pollLoop, h1, h2, h3, if_true, reqSeq, Nat.add_zero]
    by_cases hb : liltMaxPolls ≤ tries + 1
    · simp [hb]
    · have ha : again (v tries) = false := by
        rcases hstop with h | h
        · simpa using h
        · omega
      simp [hb, ha]
  | succ M ih =>
    intro hok hjson hext hagain hbound hstop hfuel
    obtain ⟨f, rfl⟩ : ∃ f, fuel = f + 1 := ⟨fuel - 1, by omega⟩
    have h1 := hok 0 (by omega)
    have h2 := hjson 0 (by omega)
    have h3 := hext 0 (by omega)
    simp only [Nat.add_zero] at h1 h2 h3
    have hb : ¬ liltMaxPolls ≤ tries + 1 := by omega
    have ha : again (v (tries + 0)) = true := hagain 0 (by omega)
    simp only [Nat.add_zero] at ha
    have ih' := ih (tries + 1) f
      (fun i hi => by
        have e : tries + 1 + i = tries + (i + 1) := by omega
        rw [e]; exact hok (i + 1) (by omega))
      (fun i hi => by
        have e : tries + 1 + i = tries + (i + 1) := by omega
        rw [e]; exact hjson (i + 1) (by omega))
      (fun i hi => by
        have e : tries + 1 + i = tries + (i + 1) := by omega
        rw [e]; exact hext (i + 1) (by omega))
      (fun i hi => by
        have e : tries + 1 + i = tries + (i + 1) := by omega
        rw [e]; exact hagain (i + 1) (by omega))
      (by omega)
      (by
        have e : tries + 1 + M = tries + (M + 1) := by omega
        rw [e]; rcases hstop with h | h
        · exact Or.inl h
        · exact Or.inr (by omega))
      (by omega)
    simp only [Fixed.pollLoop, h1, h2, h3, if_true, hb, if_false, ha, ih', reqSeq]
    have e : tries + 1 + M = tries + (M + 1) := by omega
    rw [e]

/-- A fixed-delay polling loop never lets an exception escape when every
successful poll response has a JSON body the extraction can read. -/
theorem pollLoop_no_throw (env : Env) (mkReq : Nat → ReqKind)
    (extract : JSVal → Except Unit JSVal) (again : JSVal → Bool) (failWarn : Warning)
    (hgood : ∀ n, (env (mkReq n)).ok = true →
      ∃ json val, (env (mkReq n)).jsonBody = Except.ok json ∧ extract json = Except.ok val)
    (tries fuel : Nat) (htr : tries < liltMaxPolls) (hfuel : liltMaxPolls ≤ tries + fuel) :
    (Fixed.pollLoop env mkReq extract again failWarn tries fuel).2.2 ≠ LoopOut.thrown := by
  induction fuel generalizing tries with
  | zero => omega
  | succ f ih =>
    by_cases hok : (env (mkReq tries)).ok = true
    · obtain ⟨json, val, hj, he⟩ := hgood tries hok
      by_cases hb : liltMaxPolls ≤ tries + 1
      · simp [Fixed.pollLoop, hok, hj, he, hb]
      · by_cases ha : again val = true
        · have := ih (tries + 1) (by omega) (by omega)
          simp only [Fixed.pollLoop, hok, hj, he, hb, ha, if_true, if_false]
          simpa using this
        · simp [Fixed.pollLoop, hok, hj, he, hb, ha]
    · have hok2 : (env (mkReq tries)).ok = false := by
        revert hok; cases (env (mkReq tries)).ok <;> simp
      simp [Fixed.pollLoop, hok2]

/-- A backoff `pollFor` loop whose first `M` answers are null finishes at
poll `M` with the first non-null answer, provided the (doubly
incremented) `numPolls` counter has not yet hit the bound there. -/
theorem pollForAux_finishes (env : Env) (mkReq : Nat → ReqKind)
    (check : JSVal → Except Unit JSVal) (phase : Phase)
    (j v : Nat → JSVal) (M numPolls k fuel : Nat)
    (hok : ∀ i, i ≤ M → (env (mkReq (k + i))).ok = true)
    (hjson : ∀ i, i ≤ M → (env (mkReq (k + i))).jsonBody = Except.ok (j (k + i)))
    (hchk : ∀ i, i ≤ M → check (j (k + i)) = Except.ok (v (k + i)))
    (hnull : ∀ i, i < M → v (k + i) = JSVal.null)
    (hlast : isStrictNull (v (k + M)) = false)
    (hguard : numPolls + 2 * M < liltMaxPolls)
    (hfuel : M < fuel) :
    Backoff.pollForAux env mkReq check phase numPolls k fuel =
      (reqSeq mkReq k (M + 1), [], LoopOut.finished (v (k + M))) := by
  revert hok hjson hchk hnull hlast hguard hfuel
  induction M generalizing numPolls k fuel with
  | zero =>
    intro hok hjson hchk hnull hlast hguard hfuel
    obtain ⟨f, rfl⟩ : ∃ f, fuel = f + 1 := ⟨fuel - 1, by omega⟩
    have h1 := hok 0 (by omega)
    have h2 := hjson 0 (by omega)
    have h3 := hchk 0 (by omega)
    simp only [Nat.add_zero] at h1 h2 h3 hlast
    have hg : numPolls < liltMaxPolls := by omega
    simp [Backoff.pollForAux, hg, h1, h2, h3, hlast, reqSeq]
  | succ M ih =>
    intro hok hjson hchk hnull hlast hguard hfuel
    obtain ⟨f, rfl⟩ : ∃ f, fuel = f + 1 := ⟨fuel - 1, by omega⟩
    have h1 := hok 0 (by omega)
    have h2 := hjson 0 (by omega)
    have h3 := hchk 0 (by omega)
    have h4 := hnull 0 (by omega)
    simp only [Nat.add_zero] at h1 h2 h3 h4
    have hg : numPolls < liltMaxPolls := by omega
    have ih' := ih (numPolls + 1 + 1) (k + 1) f
      (fun i hi => by
        have e : k + 1 + i = k + (i + 1) := by omega
        rw [e]; exact hok (i + 1) (by omega))
      (fun i hi => by
        have e : k + 1 + i = k + (i + 1) := by omega
        rw [e]; exact hjson (i + 1) (by omega))
      (fun i hi => by
        have e : k + 1 + i = k + (i + 1) := by omega
        rw [e]; exact hchk (i + 1) (by omega))
      (fun i hi => by
        have e : k + 1 + i = k + (i + 1) := by omega
        rw [e]; exact hnull (i + 1) (by omega))
      (by
        have e : k + 1 + M = k + (M + 1) := by omega
        rw [e]; exact hlast)
      (by omega)
      (by omega)
    simp only [Backoff.pollForAux, hg, if_true, h1, h2, h3, h4, isStrictNull, ih', reqSeq]
    have e : k + 1 + M = k + (M + 1) := by omega
    rw [e]

/-- The number of fetches `pollForAux` performs when every answer stays
null: `numPolls` advances by two per fetch towards `liltMaxPolls`. -/
def gaveUpCount (numPolls fuel : Nat) : Nat :=
  if numPolls < liltMaxPolls then
    match fuel with
    | 0 => 0
    | Nat.succ fuel2 => gaveUpCount ((numPolls + 1) + 1) fuel2 + 1
  else 0

/-- A backoff `pollFor` loop all of whose answers are null gives up
(returning null after a `Gave up polling` warning) after
`gaveUpCount` fetches. -/
theorem pollForAux_exhausts (env : Env) (mkReq : Nat → ReqKind)
    (check : JSVal → Except Unit JSVal) (phase : Phase)
    (j : Nat → JSVal) (numPolls k fuel : Nat)
    (hok : ∀ i, (env (mkReq i)).ok = true)
    (hjson : ∀ i, (env (mkReq i)).jsonBody = Except.ok (j i))
    (hchk : ∀ i, check (j i) = Except.ok JSVal.null)
    (hfuel : liltMaxPolls ≤ numPolls + 2 * fuel) :
    Backoff.pollForAux env mkReq check phase numPolls k fuel =
      (reqSeq mkReq k (gaveUpCount numPolls fuel), [Warning.pollGaveUp phase],
        LoopOut.returnedNull) := by
  induction fuel generalizing numPolls k with
  | zero =>
    have hg : ¬ numPolls < liltMaxPolls := by omega
    simp [Backoff.pollForAux, gaveUpCount, hg, reqSeq]
  | succ f ih =>
    by_cases hg : numPolls < liltMaxPolls
    · have ih' := ih (numPolls + 1 + 1) (k + 1) (by omega)
      simp [Backoff.pollForAux, gaveUpCount, hg, hok k, hjson k, hchk k, isStrictNull,
        ih', reqSeq]
    · simp [Backoff.pollForAux, gaveUpCount, hg, reqSeq]

/-- A backoff `pollFor` loop never lets an exception escape when every
successful poll response has a JSON body `checkResponse` can read. -/
theorem pollForAux_no_throw (env : Env) (mkReq : Nat → ReqKind)
    (check : JSVal → Except Unit JSVal) (phase : Phase)
    (hgood : ∀ n, (env (mkReq n)).ok = true →
      ∃ json val, (env (mkReq n)).jsonBody = Except.ok json ∧ check json = Except.ok val)
    (numPolls k fuel : Nat) (hfuel : liltMaxPolls ≤ numPolls + 2 * fuel) :
    (Backoff.pollForAux env mkReq check phase numPolls k fuel).2.2 ≠ LoopOut.thrown := by
  induction fuel generalizing numPolls k with
  | zero =>
    have hg : ¬ numPolls < liltMaxPolls := by omega
    simp [Backoff.pollForAux, hg]
  | succ f ih =>
    by_cases hg : numPolls < liltMaxPolls
    · by_cases hok : (env (mkReq k)).ok = true
      · obtain ⟨json, val, hj, hc⟩ := hgood k hok
        by_cases hv : isStrictNull val = true
        · have := ih (numPolls + 1 + 1) (k + 1) (by omega)
          simp only [Backoff.pollForAux, hg, if_true, hok, hj, hc, hv]
          simpa using this
        · have hv2 : isStrictNull val = false := by
            revert hv; cases isStrictNull val <;> simp
          simp [Backoff.pollForAux, hg, hok, hj, hc, hv2]
      · have hok2 : (env (mkReq k)).ok = false := by
          revert hok; cases (env (mkReq k)).ok <;> simp
        simp [Backoff.pollForAux, hg, hok2]
    · simp [Backoff.pollForAux, hg]

example : gaveUpCount 0 liltMaxPolls = 10 := rfl

/-- A request kind that differs from every request of a `reqSeq` is not
in it. -/
theorem not_mem_reqSeq {r : ReqKind} {mkReq : Nat → ReqKind} {a n : Nat}
    (h : ∀ i, r ≠ mkReq i) : r ∉ reqSeq mkReq a n := by
  intro hm
  obtain ⟨i, _, he⟩ := reqSeq_mem hm
  exact h (a + i) he

/-! ## The claims -/

/-- C1, counterexample: the claim quantifies over both variants'
`shouldOfferTranslation`, but in the backoff variant the message text
does influence the result: with distinct sender and current user, a text
containing the segment `" the "` is not offered translation. -/
theorem C1_counterexample :
    ("@alice:example.org" : String) ≠ "@bob:example.org" ∧
    Backoff.shouldOfferTranslation "@alice:example.org" "@bob:example.org"
      "I like the cake" = false := by
  constructor
  · decide
  · rfl

/-- C1 (amended): in the fixed-delay variant (TranslateThis.tsx),
`shouldOfferTranslation sender currentUser text` is true iff the sender
differs from the current user, for every text — so there the text has no
influence on the result. -/
theorem C1_theorem (messageSender currentUser messageText : String) :
    Fixed.shouldOfferTranslation messageSender currentUser messageText =
      decide (messageSender ≠ currentUser) := by
  unfold Fixed.shouldOfferTranslation Fixed.liltShouldOfferTranslation
  by_cases h : messageSender = currentUser
  · subst h; simp
  · simp [h, bne_iff_ne]

/-- C2: with the terminal condition never met (no `detected_lang` ever
populated, every response 2xx), the fixed-delay variant's polling loop
issues exactly `liltMaxPolls = 20` requests and the workflow resolves to
the bounded-retry outcome — but the backoff variant's `pollFor` issues
only 10 requests before giving up, because `numPolls` is incremented both
in the loop body and in the `for` update.  The same counts hold for the
check-translation phase (status never ready, `envStuck`). -/
theorem C2_theorem :
    (Fixed.pollLoop (envDetect JSVal.null) ReqKind.checkUpload extractDetectedLang isLooseNull
        Warning.checkUploadFailed 0 liltMaxPolls).1.length = liltMaxPolls ∧
    (Fixed.liltTranslate (envDetect JSVal.null)).2.2 = Except.ok none ∧
    (Backoff.pollFor (envDetect JSVal.null) ReqKind.checkUpload Backoff.checkUploadResponse
        Phase.checkUpload).1.length = 10 ∧
    (Backoff.pollFor (envDetect JSVal.null) ReqKind.checkUpload Backoff.checkUploadResponse
        Phase.checkUpload).2.2 = LoopOut.returnedNull ∧
    (Fixed.pollLoop envStuck ReqKind.checkTranslate (fun j => j.getProp "status")
        (fun v => !strictEqStr v "ReadyForDownload") Warning.checkTranslateFailed 0
        liltMaxPolls).1.length = liltMaxPolls ∧
    (Backoff.pollFor envStuck ReqKind.checkTranslate Backoff.checkTranslateResponse
        Phase.checkTranslate).1.length = 10 := by
  exact ⟨rfl, rfl, rfl, rfl, rfl, rfl⟩

/-- C5: if the upload request returns a non-success response, both
variants log the upload failure, issue no further request, return null,
and the click handler moves the UI to Failed. -/
theorem C5_theorem (env : Env) (h : (env ReqKind.upload).ok = false) :
    Fixed.liltTranslate env = ([ReqKind.upload], [Warning.uploadFailed], Except.ok none) ∧
    Backoff.liltTranslate env = ([ReqKind.upload], [Warning.uploadFailed], Except.ok none) ∧
    applyClick ⟨Status.Ready, none⟩ (Fixed.liltTranslate env).2.2 =
      ⟨Status.Failed, none⟩ ∧
    applyClick ⟨Status.Ready, none⟩ (Backoff.liltTranslate env).2.2 =
      ⟨Status.Failed, none⟩ := by
  have h1 : Fixed.liltTranslate env = ([ReqKind.upload], [Warning.uploadFailed], Except.ok none) := by
    simp [Fixed.liltTranslate, h]
  have h2 : Backoff.liltTranslate env = ([ReqKind.upload], [Warning.uploadFailed], Except.ok none) := by
    simp [Backoff.liltTranslate, h]
  refine ⟨h1, h2, ?_, ?_⟩
  · rw [h1]; rfl
  · rw [h2]; rfl

/-- C5 witness: the upload-failure service behaviour `envUploadFail`. -/
theorem C5_witness :
    (envUploadFail ReqKind.upload).ok = false ∧
    Fixed.liltTranslate envUploadFail =
      ([ReqKind.upload], [Warning.uploadFailed], Except.ok none) ∧
    Backoff.liltTranslate envUploadFail =
      ([ReqKind.upload], [Warning.uploadFailed], Except.ok none) := by
  have h := C5_theorem envUploadFail rfl
  exact ⟨rfl, h.1, h.2.1⟩

/-- C8: the backoff variant's `sleepTime` is the base delay 100 ms times
`min 32 (2 ^ (pollNumber + 1))`, never exceeds 3200 ms, and doubles with
the poll number up to that cap; the fixed-delay variant's inter-poll
delay is the constant `liltPollTimeMs = 1000`. -/
theorem C8_theorem :
    (∀ pollNumber : Nat,
        Backoff.sleepTime pollNumber = 100 * min 32 (2 ^ (pollNumber + 1)) ∧
        Backoff.sleepTime pollNumber ≤ 3200 ∧
        Backoff.sleepTime (pollNumber + 1) = min 3200 (2 * Backoff.sleepTime pollNumber)) ∧
    Fixed.liltPollTimeMs = 1000 := by
  refine ⟨fun n => ⟨rfl, ?_, ?_⟩, rfl⟩
  · have h := Nat.min_le_left 32 (2 ^ (n + 1))
    show 100 * min 32 (2 ^ (n + 1)) ≤ 3200
    omega
  · show 100 * min 32 (2 ^ (n + 1 + 1)) = min 3200 (2 * (100 * min 32 (2 ^ (n + 1))))
    rcases Nat.lt_or_ge n 4 with h | h
    · interval_cases n <;> decide
    · have h1 : 32 ≤ 2 ^ (n + 1) := by
        calc (32 : Nat) = 2 ^ 5 := by norm_num
        _ ≤ 2 ^ (n + 1) := Nat.pow_le_pow_right (by norm_num) (by omega)
      have h2 : 32 ≤ 2 ^ (n + 1 + 1) := by
        calc (32 : Nat) = 2 ^ 5 := by norm_num
        _ ≤ 2 ^ (n + 1 + 1) := Nat.pow_le_pow_right (by norm_num) (by omega)
      rw [Nat.min_eq_left h1, Nat.min_eq_left h2]
      norm_num

/-- C10: in the backoff variant, translation is offered iff the sender
differs from the current user and the lowercased text contains none of
the ten hard-coded English segments. -/
theorem C10_theorem (messageSender currentUser messageText : String) :
    Backoff.shouldOfferTranslation messageSender currentUser messageText = true ↔
      (messageSender ≠ currentUser ∧
        ∀ segment ∈ Backoff.englishSegments,
          strIncludes (strToLower messageText) segment = false) := by
  have hseg : ∀ segment ∈ Backoff.englishSegments, strToLower segment = segment := by decide
  simp only [Backoff.shouldOfferTranslation, Backoff.liltShouldOfferTranslation,
    Bool.and_eq_true, bne_iff_ne, ne_eq, List.all_eq_true, Bool.not_eq_true']
  constructor
  · rintro ⟨h1, h2⟩
    refine ⟨h1, fun segment hs => ?_⟩
    rw [← hseg segment hs]
    exact h2 segment hs
  · rintro ⟨h1, h2⟩
    refine ⟨h1, fun segment hs => ?_⟩
    rw [hseg segment hs]
    exact h2 segment hs

/-- C6: in any run of either variant where detection yields a language
code that is not a key of `liltMemories` (on the `M1`-th poll for the
fixed-delay variant, on the `M2`-th for the backoff one, within the
respective budgets), the workflow returns null — so the click handler
moves the UI to Failed — and the translate endpoint is never called. -/
theorem C6_theorem
    (env1 env2 : Env) (lang : String) (hlang : liltMemories.lookup lang = none)
    (jU1 : JSVal) (j1 v1 : Nat → JSVal) (M1 : Nat)
    (jU2 : JSVal) (j2 v2 : Nat → JSVal) (M2 : Nat)
    (hup1 : (env1 ReqKind.upload).ok = true)
    (hupj1 : (env1 ReqKind.upload).jsonBody = Except.ok jU1)
    (hupid1 : ∃ fid, jU1.getProp "id" = Except.ok fid)
    (hok1 : ∀ i, i ≤ M1 → (env1 (ReqKind.checkUpload i)).ok = true)
    (hjson1 : ∀ i, i ≤ M1 → (env1 (ReqKind.checkUpload i)).jsonBody = Except.ok (j1 i))
    (hext1 : ∀ i, i ≤ M1 → extractDetectedLang (j1 i) = Except.ok (v1 i))
    (hnull1 : ∀ i, i < M1 → isLooseNull (v1 i) = true)
    (hdet1 : v1 M1 = JSVal.str lang)
    (hM1 : M1 + 1 ≤ liltMaxPolls)
    (hup2 : (env2 ReqKind.upload).ok = true)
    (hupj2 : (env2 ReqKind.upload).jsonBody = Except.ok jU2)
    (hupid2 : ∃ fid, jU2.getProp "id" = Except.ok fid)
    (hok2 : ∀ i, i ≤ M2 → (env2 (ReqKind.checkUpload i)).ok = true)
    (hjson2 : ∀ i, i ≤ M2 → (env2 (ReqKind.checkUpload i)).jsonBody = Except.ok (j2 i))
    (hchk2 : ∀ i, i ≤ M2 → Backoff.checkUploadResponse (j2 i) = Except.ok (v2 i))
    (hnull2 : ∀ i, i < M2 → v2 i = JSVal.null)
    (hdet2 : v2 M2 = JSVal.str lang)
    (hM2 : 2 * M2 < liltMaxPolls) :
    (Fixed.liltTranslate env1).2.2 = Except.ok none ∧
    ReqKind.translate ∉ (Fixed.liltTranslate env1).1 ∧
    applyClick ⟨Status.Ready, none⟩ (Fixed.liltTranslate env1).2.2 =
      ⟨Status.Failed, none⟩ ∧
    (Backoff.liltTranslate env2).2.2 = Except.ok none ∧
    ReqKind.translate ∉ (Backoff.liltTranslate env2).1 ∧
    applyClick ⟨Status.Ready, none⟩ (Backoff.liltTranslate env2).2.2 =
      ⟨Status.Failed, none⟩ := by
  obtain ⟨fid1, hfid1⟩ := hupid1
  obtain ⟨fid2, hfid2⟩ := hupid2
  have hloop1 := pollLoop_finishes env1 ReqKind.checkUpload extractDetectedLang isLooseNull
      Warning.checkUploadFailed j1 v1 M1 0 liltMaxPolls
      (fun i hi => by simpa using hok1 i hi)
      (fun i hi => by simpa using hjson1 i hi)
      (fun i hi => by simpa using hext1 i hi)
      (fun i hi => by simpa using hnull1 i hi)
      (by omega)
      (Or.inl (by simp [hdet1, isLooseNull]))
      (by omega)
  have hfrom1 : Fixed.liltTranslateFrom env1 (JSVal.str lang) =
      ([], [Warning.unsupported (JSVal.str lang)], Except.ok none) := by
    simp [Fixed.liltTranslateFrom, jsToString, hlang, isStrictNull]
  have hfix : Fixed.liltTranslate env1 =
      (ReqKind.upload :: reqSeq ReqKind.checkUpload 0 (M1 + 1),
       [Warning.unsupported (JSVal.str lang)], Except.ok none) := by
    simp [Fixed.liltTranslate, hup1, hupj1, hfid1, hloop1, hdet1, hfrom1]
  have hloop2 := pollForAux_finishes env2 ReqKind.checkUpload Backoff.checkUploadResponse
      Phase.checkUpload j2 v2 M2 0 0 liltMaxPolls
      (fun i hi => by simpa using hok2 i hi)
      (fun i hi => by simpa using hjson2 i hi)
      (fun i hi => by simpa using hchk2 i hi)
      (fun i hi => by simpa using hnull2 i hi)
      (by simp [hdet2, isStrictNull])
      (by omega)
      (by omega)
  have hfrom2 : ∃ w, Backoff.liltTranslateFrom env2 (JSVal.str lang) =
      ([], [w], Except.ok none) := by
    by_cases hu : lang = "und"
    · subst hu
      exact ⟨Warning.undetectedUnd, by simp [Backoff.liltTranslateFrom, strictEqStr]⟩
    · refine ⟨Warning.unsupported (JSVal.str lang), ?_⟩
      have hne : strictEqStr (JSVal.str lang) "und" = false := by
        simp [strictEqStr, hu]
      simp [Backoff.liltTranslateFrom, hne, jsToString, hlang, isStrictNull]
  obtain ⟨w, hfrom2⟩ := hfrom2
  have hback : Backoff.liltTranslate env2 =
      (ReqKind.upload :: reqSeq ReqKind.checkUpload 0 (M2 + 1), [w], Except.ok none) := by
    simp [Backoff.liltTranslate, Backoff.pollFor, hup2, hupj2, hfid2, hloop2, hdet2, hfrom2]
  refine ⟨?_, ?_, ?_, ?_, ?_, ?_⟩
  · rw [hfix]
  · rw [hfix]
    intro hm
    rcases List.mem_cons.mp hm with h | h
    · exact ReqKind.noConfusion h
    · exact not_mem_reqSeq (fun i he => ReqKind.noConfusion he) h
  · rw [hfix]; rfl
  · rw [hback]
  · rw [hback]
    intro hm
    rcases List.mem_cons.mp hm with h | h
    · exact ReqKind.noConfusion h
    · exact not_mem_reqSeq (fun i he => ReqKind.noConfusion he) h
  · rw [hback]; rfl

/-- C6 witness: the service detects "es", which is not in `liltMemories`;
both variants fail without calling the translate endpoint. -/
theorem C6_witness :
    liltMemories.lookup "es" = none ∧
    (Fixed.liltTranslate (envDetect (JSVal.str "es"))).2.2 = Except.ok none ∧
    ReqKind.translate ∉ (Fixed.liltTranslate (envDetect (JSVal.str "es"))).1 ∧
    (Backoff.liltTranslate (envDetect (JSVal.str "es"))).2.2 = Except.ok none ∧
    ReqKind.translate ∉ (Backoff.liltTranslate (envDetect (JSVal.str "es"))).1 := by
  have h := C6_theorem (envDetect (JSVal.str "es")) (envDetect (JSVal.str "es")) "es" rfl
      (JSVal.obj [("id", JSVal.num 7)]) (fun _ => detectBody (JSVal.str "es"))
      (fun _ => JSVal.str "es") 0
      (JSVal.obj [("id", JSVal.num 7)]) (fun _ => detectBody (JSVal.str "es"))
      (fun _ => JSVal.str "es") 0
      rfl rfl ⟨JSVal.num 7, rfl⟩
      (fun _ _ => rfl) (fun _ _ => rfl) (fun _ _ => rfl)
      (fun i hi => absurd hi (Nat.not_lt_zero i)) rfl (by decide)
      rfl rfl ⟨JSVal.num 7, rfl⟩
      (fun _ _ => rfl) (fun _ _ => rfl) (fun _ _ => rfl)
      (fun i hi => absurd hi (Nat.not_lt_zero i)) rfl (by decide)
  exact ⟨rfl, h.1, h.2.1, h.2.2.2.1, h.2.2.2.2.1⟩

/-- C4: fixed-delay happy path.  If the upload succeeds with a readable
file id, detection yields "fr" on the `M`-th poll (within the budget),
the translate request succeeds with a readable translation id, the
status reaches "ReadyForDownload" on the `K`-th poll (so on the
`(K+1)`-th attempt, at most the budget), and the download succeeds, then
`liltTranslate` returns the downloaded response body and the click
handler surfaces it in the Translated state. -/
theorem C4_theorem (env : Env) (jU jT : JSVal)
    (j1 v1 : Nat → JSVal) (M : Nat) (j2 v2 : Nat → JSVal) (K : Nat)
    (hup : (env ReqKind.upload).ok = true)
    (hupj : (env ReqKind.upload).jsonBody = Except.ok jU)
    (hupid : ∃ fid, jU.getProp "id" = Except.ok fid)
    (hok1 : ∀ i, i ≤ M → (env (ReqKind.checkUpload i)).ok = true)
    (hjson1 : ∀ i, i ≤ M → (env (ReqKind.checkUpload i)).jsonBody = Except.ok (j1 i))
    (hext1 : ∀ i, i ≤ M → extractDetectedLang (j1 i) = Except.ok (v1 i))
    (hnull1 : ∀ i, i < M → isLooseNull (v1 i) = true)
    (hfr : v1 M = JSVal.str "fr")
    (hM : M + 1 ≤ liltMaxPolls)
    (htr : (env ReqKind.translate).ok = true)
    (htrj : (env ReqKind.translate).jsonBody = Except.ok jT)
    (htrid : ∃ tid, extractFirstId jT = Except.ok tid)
    (hok2 : ∀ i, i ≤ K → (env (ReqKind.checkTranslate i)).ok = true)
    (hjson2 : ∀ i, i ≤ K → (env (ReqKind.checkTranslate i)).jsonBody = Except.ok (j2 i))
    (hst2 : ∀ i, i ≤ K → (j2 i).getProp "status" = Except.ok (v2 i))
    (hnr2 : ∀ i, i < K → strictEqStr (v2 i) "ReadyForDownload" = false)
    (hrdy : v2 K = JSVal.str "ReadyForDownload")
    (hK : K + 1 ≤ liltMaxPolls)
    (hdl : (env ReqKind.download).ok = true) :
    (Fixed.liltTranslate env).2.2 = Except.ok (some ((env ReqKind.download).textBody)) ∧
    applyClick ⟨Status.Ready, none⟩ (Fixed.liltTranslate env).2.2 =
      ⟨Status.Translated, some ((env ReqKind.download).textBody)⟩ := by
  obtain ⟨fid, hfid⟩ := hupid
  obtain ⟨tid, htid⟩ := htrid
  have hloop1 := pollLoop_finishes env ReqKind.checkUpload extractDetectedLang isLooseNull
      Warning.checkUploadFailed j1 v1 M 0 liltMaxPolls
      (fun i hi => by simpa using hok1 i hi)
      (fun i hi => by simpa using hjson1 i hi)
      (fun i hi => by simpa using hext1 i hi)
      (fun i hi => by simpa using hnull1 i hi)
      (by omega)
      (Or.inl (by simp [hfr, isLooseNull]))
      (by omega)
  have hloop2 := pollLoop_finishes env ReqKind.checkTranslate (fun j => j.getProp "status")
      (fun v => !strictEqStr v "ReadyForDownload") Warning.checkTranslateFailed
      j2 v2 K 0 liltMaxPolls
      (fun i hi => by simpa using hok2 i hi)
      (fun i hi => by simpa using hjson2 i hi)
      (fun i hi => by simpa using hst2 i hi)
      (fun i hi => by simp [hnr2 i hi])
      (by omega)
      (Or.inl (by simp [hrdy, strictEqStr]))
      (by omega)
  have hlk : (liltMemories.lookup (jsToString (JSVal.str "fr"))).isSome = true := rfl
  have hfrom : (Fixed.liltTranslateFrom env (JSVal.str "fr")).2.2 =
      Except.ok (some ((env ReqKind.download).textBody)) := by
    simp [Fixed.liltTranslateFrom, hlk, htr, htrj, htid, hloop2, hdl]
  have hfix : (Fixed.liltTranslate env).2.2 =
      Except.ok (some ((env ReqKind.download).textBody)) := by
    simp [Fixed.liltTranslate, hup, hupj, hfid, hloop1, hfr, hfrom]
  exact ⟨hfix, by rw [hfix]; rfl⟩

/-- C4 witness: the all-successful service behaviour `envFixedHappy`,
with detection and readiness both on the first poll. -/
theorem C4_witness :
    (Fixed.liltTranslate envFixedHappy).2.2 = Except.ok (some "BONJOUR") ∧
    applyClick ⟨Status.Ready, none⟩ (Fixed.liltTranslate envFixedHappy).2.2 =
      ⟨Status.Translated, some "BONJOUR"⟩ := by
  have h := C4_theorem envFixedHappy (JSVal.obj [("id", JSVal.num 7)])
      (JSVal.arr [JSVal.obj [("id", JSVal.num 9)]])
      (fun _ => detectBody (JSVal.str "fr")) (fun _ => JSVal.str "fr") 0
      (fun _ => JSVal.obj [("status", JSVal.str "ReadyForDownload")])
      (fun _ => JSVal.str "ReadyForDownload") 0
      rfl rfl ⟨JSVal.num 7, rfl⟩
      (fun _ _ => rfl) (fun _ _ => rfl) (fun _ _ => rfl)
      (fun i hi => absurd hi (Nat.not_lt_zero i)) rfl (by decide)
      rfl rfl ⟨JSVal.num 9, rfl⟩
      (fun _ _ => rfl) (fun _ _ => rfl) (fun _ _ => rfl)
      (fun i hi => absurd hi (Nat.not_lt_zero i)) rfl (by decide)
      rfl
  exact h

/-- C3: when every check-translation poll succeeds but the status never
reaches "ReadyForDownload" (after upload and detection of "fr" and a
successful translate request), the fixed-delay variant exhausts its
budget and proceeds anyway to the download step, surfacing the
downloaded body, while the backoff variant aborts: it returns null, the
click handler moves the UI to Failed, and no download request is ever
issued.  The two variants' workflows are therefore not equivalent in
this scenario. -/
theorem C3_theorem (env : Env) (jU jT : JSVal)
    (j1 v1 : Nat → JSVal) (M : Nat) (j2 fv : Nat → JSVal)
    (hup : (env ReqKind.upload).ok = true)
    (hupj : (env ReqKind.upload).jsonBody = Except.ok jU)
    (hupid : ∃ fid, jU.getProp "id" = Except.ok fid)
    (hok1 : ∀ i, i ≤ M → (env (ReqKind.checkUpload i)).ok = true)
    (hjson1 : ∀ i, i ≤ M → (env (ReqKind.checkUpload i)).jsonBody = Except.ok (j1 i))
    (hext1 : ∀ i, i ≤ M → extractDetectedLang (j1 i) = Except.ok (v1 i))
    (hnull1 : ∀ i, i < M → v1 i = JSVal.null)
    (hfr : v1 M = JSVal.str "fr")
    (hM : 2 * M < liltMaxPolls)
    (htr : (env ReqKind.translate).ok = true)
    (htrj : (env ReqKind.translate).jsonBody = Except.ok jT)
    (htrid : ∃ tid, extractFirstId jT = Except.ok tid)
    (hok2 : ∀ i, (env (ReqKind.checkTranslate i)).ok = true)
    (hjson2 : ∀ i, (env (ReqKind.checkTranslate i)).jsonBody = Except.ok (j2 i))
    (hst2 : ∀ i, (j2 i).getProp "status" = Except.ok (fv i))
    (hnr2 : ∀ i, strictEqStr (fv i) "ReadyForDownload" = false)
    (hb2 : ∀ i, Backoff.checkTranslateResponse (j2 i) = Except.ok JSVal.null)
    (hdl : (env ReqKind.download).ok = true) :
    (Fixed.liltTranslate env).2.2 = Except.ok (some ((env ReqKind.download).textBody)) ∧
    ReqKind.download ∈ (Fixed.liltTranslate env).1 ∧
    (Backoff.liltTranslate env).2.2 = Except.ok none ∧
    ReqKind.download ∉ (Backoff.liltTranslate env).1 ∧
    applyClick ⟨Status.Ready, none⟩ (Backoff.liltTranslate env).2.2 =
      ⟨Status.Failed, none⟩ := by
  obtain ⟨fid, hfid⟩ := hupid
  obtain ⟨tid, htid⟩ := htrid
  have hmax : liltMaxPolls = 20 := rfl
  have hlk : (liltMemories.lookup (jsToString (JSVal.str "fr"))).isSome = true := rfl
  -- fixed-delay variant: detection at M, then 20 status polls, then download
  have hloop1 := pollLoop_finishes env ReqKind.checkUpload extractDetectedLang isLooseNull
      Warning.checkUploadFailed j1 v1 M 0 liltMaxPolls
      (fun i hi => by simpa using hok1 i hi)
      (fun i hi => by simpa using hjson1 i hi)
      (fun i hi => by simpa using hext1 i hi)
      (fun i hi => by simp [hnull1 i hi, isLooseNull])
      (by omega)
      (Or.inl (by simp [hfr, isLooseNull]))
      (by omega)
  have hloop2 := pollLoop_finishes env ReqKind.checkTranslate (fun j => j.getProp "status")
      (fun v => !strictEqStr v "ReadyForDownload") Warning.checkTranslateFailed
      j2 fv 19 0 liltMaxPolls
      (fun i hi => by simpa using hok2 i)
      (fun i hi => by simpa using hjson2 i)
      (fun i hi => by simpa using hst2 i)
      (fun i hi => by simp [hnr2 i])
      (by omega)
      (Or.inr (by omega))
      (by omega)
  have hfromF : (Fixed.liltTranslateFrom env (JSVal.str "fr")).2.2 =
      Except.ok (some ((env ReqKind.download).textBody)) := by
    simp [Fixed.liltTranslateFrom, hlk, htr, htrj, htid, hloop2, hdl]
  have hfixv : (Fixed.liltTranslate env).2.2 =
      Except.ok (some ((env ReqKind.download).textBody)) := by
    simp [Fixed.liltTranslate, hup, hupj, hfid, hloop1, hfr, hfromF]
  have hfromFt : (Fixed.liltTranslateFrom env (JSVal.str "fr")).1 =
      ReqKind.translate :: reqSeq ReqKind.checkTranslate 0 20 ++ [ReqKind.download] := by
    simp [Fixed.liltTranslateFrom, hlk, htr, htrj, htid, hloop2, hdl]
  have hfixt : (Fixed.liltTranslate env).1 =
      ReqKind.upload :: reqSeq ReqKind.checkUpload 0 (M + 1) ++
        (ReqKind.translate :: reqSeq ReqKind.checkTranslate 0 20 ++ [ReqKind.download]) := by
    simp [Fixed.liltTranslate, hup, hupj, hfid, hloop1, hfr, hfromFt]
  -- backoff variant: detection at M, then 10 status polls, then give up
  have hloop1B := pollForAux_finishes env ReqKind.checkUpload Backoff.checkUploadResponse
      Phase.checkUpload j1 (fun i => if isLooseNull (v1 i) then JSVal.null else v1 i)
      M 0 0 liltMaxPolls
      (fun i hi => by simpa using hok1 i hi)
      (fun i hi => by simpa using hjson1 i hi)
      (fun i hi => by
        simp only [Nat.zero_add]
        simp [Backoff.checkUploadResponse, hext1 i hi])
      (fun i hi => by simp [hnull1 i hi, isLooseNull])
      (by simp [hfr, isLooseNull, isStrictNull])
      (by omega)
      (by omega)
  have hloop2B := pollForAux_exhausts env ReqKind.checkTranslate Backoff.checkTranslateResponse
      Phase.checkTranslate j2 0 0 liltMaxPolls hok2 hjson2 hb2 (by omega)
  have hfromB : Backoff.liltTranslateFrom env (JSVal.str "fr") =
      (ReqKind.translate :: reqSeq ReqKind.checkTranslate 0 (gaveUpCount 0 liltMaxPolls),
        [Warning.pollGaveUp Phase.checkTranslate], Except.ok none) := by
    have hund : strictEqStr (JSVal.str "fr") "und" = false := rfl
    have hmem : liltMemories.lookup (jsToString (JSVal.str "fr")) = some 69501 := rfl
    simp [Backoff.liltTranslateFrom, hund, hmem, htr, htrj, htid, Backoff.pollFor, hloop2B]
  have hbackEq : Backoff.liltTranslate env =
      (ReqKind.upload :: reqSeq ReqKind.checkUpload 0 (M + 1) ++
        (ReqKind.translate :: reqSeq ReqKind.checkTranslate 0 (gaveUpCount 0 liltMaxPolls)),
       [Warning.pollGaveUp Phase.checkTranslate], Except.ok none) := by
    simp [Backoff.liltTranslate, Backoff.pollFor, hup, hupj, hfid, hloop1B, hfr,
      isLooseNull, hfromB]
  refine ⟨hfixv, ?_, ?_, ?_, ?_⟩
  · rw [hfixt]
    simp [List.mem_append, List.mem_cons]
  · rw [hbackEq]
  · rw [hbackEq]
    intro hm
    rcases List.mem_cons.mp hm with h | h
    · exact ReqKind.noConfusion h
    rcases List.mem_append.mp h with h | h
    · exact not_mem_reqSeq (fun i he => ReqKind.noConfusion he) h
    rcases List.mem_cons.mp h with h | h
    · exact ReqKind.noConfusion h
    · exact not_mem_reqSeq (fun i he => ReqKind.noConfusion he) h
  · rw [hbackEq]; rfl

/-- C3 witness: the service behaviour `envStuck`, where detection yields
"fr" at once and every status poll reports "InProgress". -/
theorem C3_witness :
    (Fixed.liltTranslate envStuck).2.2 = Except.ok (some "BONJOUR") ∧
    ReqKind.download ∈ (Fixed.liltTranslate envStuck).1 ∧
    (Backoff.liltTranslate envStuck).2.2 = Except.ok none ∧
    ReqKind.download ∉ (Backoff.liltTranslate envStuck).1 := by
  have h := C3_theorem envStuck (JSVal.obj [("id", JSVal.num 7)])
      (JSVal.arr [JSVal.obj [("id", JSVal.num 9)]])
      (fun _ => detectBody (JSVal.str "fr")) (fun _ => JSVal.str "fr") 0
      (fun _ => statusArrBody "InProgress") (fun _ => JSVal.undef)
      rfl rfl ⟨JSVal.num 7, rfl⟩
      (fun _ _ => rfl) (fun _ _ => rfl) (fun _ _ => rfl)
      (fun i hi => absurd hi (Nat.not_lt_zero i)) rfl (by decide)
      rfl rfl ⟨JSVal.num 9, rfl⟩
      (fun _ => rfl) (fun _ => rfl) (fun _ => rfl) (fun _ => rfl) (fun _ => rfl)
      rfl
  exact ⟨h.1, h.2.1, h.2.2.1, h.2.2.2.1⟩

/-- C7, counterexample: in the fixed-delay variant a run whose detected
language is the undetermined sentinel "und" aborts, but its only logged
diagnostic is the unsupported-language one (`Not set up to translate
from und.`) — the same diagnostic family an unmapped real language such
as "es" receives — rather than a no-detection diagnostic, so the log
does not distinguish the undetermined case from the unsupported case
there. -/
theorem C7_counterexample :
    (Fixed.liltTranslate (envDetect (JSVal.str "und"))).2.1 =
      [Warning.unsupported (JSVal.str "und")] ∧
    (Fixed.liltTranslate (envDetect (JSVal.str "es"))).2.1 =
      [Warning.unsupported (JSVal.str "es")] ∧
    (Fixed.liltTranslate (envDetect (JSVal.str "und"))).2.2 = Except.ok none := by
  exact ⟨rfl, rfl, rfl⟩

/-- C7 (amended): when the detected language is absent (null on every
poll, `env1`) or the undetermined sentinel "und" (`env2`), both variants
return null, so the UI moves to Failed.  The backoff variant's
diagnostics distinguish no detection (`noDetection` for null,
`undetectedUnd` for "und") from the unsupported-language diagnostic; the
fixed-delay variant logs `noDetection` for null but logs "und" with the
same `unsupported` diagnostic used for any unmapped language code. -/
theorem C7_theorem (env1 env2 : Env) (jU1 jU2 : JSVal)
    (j1 j2 v2 : Nat → JSVal) (M2 : Nat)
    (hup1 : (env1 ReqKind.upload).ok = true)
    (hupj1 : (env1 ReqKind.upload).jsonBody = Except.ok jU1)
    (hupid1 : ∃ fid, jU1.getProp "id" = Except.ok fid)
    (hok1 : ∀ i, (env1 (ReqKind.checkUpload i)).ok = true)
    (hjson1 : ∀ i, (env1 (ReqKind.checkUpload i)).jsonBody = Except.ok (j1 i))
    (hext1 : ∀ i, extractDetectedLang (j1 i) = Except.ok JSVal.null)
    (hup2 : (env2 ReqKind.upload).ok = true)
    (hupj2 : (env2 ReqKind.upload).jsonBody = Except.ok jU2)
    (hupid2 : ∃ fid, jU2.getProp "id" = Except.ok fid)
    (hok2 : ∀ i, i ≤ M2 → (env2 (ReqKind.checkUpload i)).ok = true)
    (hjson2 : ∀ i, i ≤ M2 → (env2 (ReqKind.checkUpload i)).jsonBody = Except.ok (j2 i))
    (hext2 : ∀ i, i ≤ M2 → extractDetectedLang (j2 i) = Except.ok (v2 i))
    (hnull2 : ∀ i, i < M2 → v2 i = JSVal.null)
    (hdet2 : v2 M2 = JSVal.str "und")
    (hM2 : 2 * M2 < liltMaxPolls) :
    (Fixed.liltTranslate env1).2.2 = Except.ok none ∧
    (Fixed.liltTranslate env1).2.1 = [Warning.noDetection] ∧
    (Backoff.liltTranslate env1).2.2 = Except.ok none ∧
    (Backoff.liltTranslate env1).2.1 =
      [Warning.pollGaveUp Phase.checkUpload, Warning.noDetection] ∧
    (Fixed.liltTranslate env2).2.2 = Except.ok none ∧
    (Fixed.liltTranslate env2).2.1 = [Warning.unsupported (JSVal.str "und")] ∧
    (Backoff.liltTranslate env2).2.2 = Except.ok none ∧
    (Backoff.liltTranslate env2).2.1 = [Warning.undetectedUnd] := by
  obtain ⟨fid1, hfid1⟩ := hupid1
  obtain ⟨fid2, hfid2⟩ := hupid2
  have hlkNull : liltMemories.lookup "null" = none := rfl
  have hlkUnd : liltMemories.lookup "und" = none := rfl
  have hloop1 := pollLoop_finishes env1 ReqKind.checkUpload extractDetectedLang isLooseNull
      Warning.checkUploadFailed j1 (fun _ => JSVal.null) 19 0 liltMaxPolls
      (fun i _ => by simpa using hok1 i)
      (fun i _ => by simpa using hjson1 i)
      (fun i _ => by simpa using hext1 i)
      (fun i _ => by simp [isLooseNull])
      (by decide)
      (Or.inr (by decide))
      (by decide)
  have hfrom1 : Fixed.liltTranslateFrom env1 JSVal.null =
      ([], [Warning.noDetection], Except.ok none) := by
    simp [Fixed.liltTranslateFrom, jsToString, hlkNull, isStrictNull]
  have hfix1v : (Fixed.liltTranslate env1).2.2 = Except.ok none := by
    simp [Fixed.liltTranslate, hup1, hupj1, hfid1, hloop1, hfrom1]
  have hfix1w : (Fixed.liltTranslate env1).2.1 = [Warning.noDetection] := by
    simp [Fixed.liltTranslate, hup1, hupj1, hfid1, hloop1, hfrom1]
  have hchk1 : ∀ i, Backoff.checkUploadResponse (j1 i) = Except.ok JSVal.null := fun i => by
    simp [Backoff.checkUploadResponse, hext1 i, isLooseNull]
  have hloop1B := pollForAux_exhausts env1 ReqKind.checkUpload Backoff.checkUploadResponse
      Phase.checkUpload j1 0 0 liltMaxPolls hok1 hjson1 hchk1 (by decide)
  have hfrom1B : Backoff.liltTranslateFrom env1 JSVal.null =
      ([], [Warning.noDetection], Except.ok none) := by
    simp [Backoff.liltTranslateFrom, strictEqStr, jsToString, hlkNull, isStrictNull]
  have hback1v : (Backoff.liltTranslate env1).2.2 = Except.ok none := by
    simp [Backoff.liltTranslate, Backoff.pollFor, hup1, hupj1, hfid1, hloop1B, hfrom1B]
  have hback1w : (Backoff.liltTranslate env1).2.1 =
      [Warning.pollGaveUp Phase.checkUpload, Warning.noDetection] := by
    simp [Backoff.liltTranslate, Backoff.pollFor, hup1, hupj1, hfid1, hloop1B, hfrom1B]
  have hloop2 := pollLoop_finishes env2 ReqKind.checkUpload extractDetectedLang isLooseNull
      Warning.checkUploadFailed j2 v2 M2 0 liltMaxPolls
      (fun i hi => by simpa using hok2 i hi)
      (fun i hi => by simpa using hjson2 i hi)
      (fun i hi => by simpa using hext2 i hi)
      (fun i hi => by simp [hnull2 i hi, isLooseNull])
      (by omega)
      (Or.inl (by simp [hdet2, isLooseNull]))
      (by omega)
  have hfrom2 : Fixed.liltTranslateFrom env2 (JSVal.str "und") =
      ([], [Warning.unsupported (JSVal.str "und")], Except.ok none) := by
    simp [Fixed.liltTranslateFrom, jsToString, hlkUnd, isStrictNull]
  have hfix2v : (Fixed.liltTranslate env2).2.2 = Except.ok none := by
    simp [Fixed.liltTranslate, hup2, hupj2, hfid2, hloop2, hdet2, hfrom2]
  have hfix2w : (Fixed.liltTranslate env2).2.1 = [Warning.unsupported (JSVal.str "und")] := by
    simp [Fixed.liltTranslate, hup2, hupj2, hfid2, hloop2, hdet2, hfrom2]
  have hloop2B := pollForAux_finishes env2 ReqKind.checkUpload Backoff.checkUploadResponse
      Phase.checkUpload j2 (fun i => if isLooseNull (v2 i) then JSVal.null else v2 i)
      M2 0 0 liltMaxPolls
      (fun i hi => by simpa using hok2 i hi)
      (fun i hi => by simpa using hjson2 i hi)
      (fun i hi => by
        simp only [Nat.zero_add]
        simp [Backoff.checkUploadResponse, hext2 i hi])
      (fun i hi => by simp [hnull2 i hi, isLooseNull])
      (by simp [hdet2, isLooseNull, isStrictNull])
      (by omega)
      (by omega)
  have hfrom2B : Backoff.liltTranslateFrom env2 (JSVal.str "und") =
      ([], [Warning.undetectedUnd], Except.ok none) := by
    simp [Backoff.liltTranslateFrom, strictEqStr]
  have hback2v : (Backoff.liltTranslate env2).2.2 = Except.ok none := by
    simp [Backoff.liltTranslate, Backoff.pollFor, hup2, hupj2, hfid2, hloop2B, hdet2,
      isLooseNull, hfrom2B]
  have hback2w : (Backoff.liltTranslate env2).2.1 = [Warning.undetectedUnd] := by
    simp [Backoff.liltTranslate, Backoff.pollFor, hup2, hupj2, hfid2, hloop2B, hdet2,
      isLooseNull, hfrom2B]
  exact ⟨hfix1v, hfix1w, hback1v, hback1w, hfix2v, hfix2w, hback2v, hback2w⟩

/-- C7 witness: the service behaviours that always report a null
detected language and that always report "und". -/
theorem C7_witness :
    (Fixed.liltTranslate (envDetect JSVal.null)).2.1 = [Warning.noDetection] ∧
    (Backoff.liltTranslate (envDetect JSVal.null)).2.1 =
      [Warning.pollGaveUp Phase.checkUpload, Warning.noDetection] ∧
    (Fixed.liltTranslate (envDetect (JSVal.str "und"))).2.1 =
      [Warning.unsupported (JSVal.str "und")] ∧
    (Backoff.liltTranslate (envDetect (JSVal.str "und"))).2.1 =
      [Warning.undetectedUnd] := by
  have h := C7_theorem (envDetect JSVal.null) (envDetect (JSVal.str "und"))
      (JSVal.obj [("id", JSVal.num 7)]) (JSVal.obj [("id", JSVal.num 7)])
      (fun _ => detectBody JSVal.null) (fun _ => detectBody (JSVal.str "und"))
      (fun _ => JSVal.str "und") 0
      rfl rfl ⟨JSVal.num 7, rfl⟩ (fun _ => rfl) (fun _ => rfl) (fun _ => rfl)
      rfl rfl ⟨JSVal.num 7, rfl⟩ (fun _ _ => rfl) (fun _ _ => rfl) (fun _ _ => rfl)
      (fun i hi => absurd hi (Nat.not_lt_zero i)) rfl (by decide)
  exact ⟨h.2.1, h.2.2.2.1, h.2.2.2.2.2.1, h.2.2.2.2.2.2.2⟩

/-! ## Exception safety (C9) -/

/-- Every successful response has a JSON body of the shape the code
dereferences: an object with an id for the upload, `[{id}]` for the
translate request, `[{detected_lang}]`-readable bodies for check-upload
polls, and check-translate bodies readable by both variants' status
extractions. -/
def WellFormedEnv (env : Env) : Prop :=
  ((env ReqKind.upload).ok = true →
    ∃ j v, (env ReqKind.upload).jsonBody = Except.ok j ∧ j.getProp "id" = Except.ok v) ∧
  (∀ n, (env (ReqKind.checkUpload n)).ok = true →
    ∃ j v, (env (ReqKind.checkUpload n)).jsonBody = Except.ok j ∧
      extractDetectedLang j = Except.ok v) ∧
  ((env ReqKind.translate).ok = true →
    ∃ j v, (env ReqKind.translate).jsonBody = Except.ok j ∧
      extractFirstId j = Except.ok v) ∧
  (∀ n, (env (ReqKind.checkTranslate n)).ok = true →
    ∃ j v w, (env (ReqKind.checkTranslate n)).jsonBody = Except.ok j ∧
      j.getProp "status" = Except.ok v ∧ Backoff.checkTranslateResponse j = Except.ok w)

/-- After detection, the fixed-delay variant completes without an
exception when the translate and check-translate responses are
readable. -/
theorem liltTranslateFrom_no_throw_fixed (env : Env) (d : JSVal)
    (htr : (env ReqKind.translate).ok = true →
      ∃ j v, (env ReqKind.translate).jsonBody = Except.ok j ∧ extractFirstId j = Except.ok v)
    (hct : ∀ n, (env (ReqKind.checkTranslate n)).ok = true →
      ∃ j v, (env (ReqKind.checkTranslate n)).jsonBody = Except.ok j ∧
        j.getProp "status" = Except.ok v) :
    ∃ r, (Fixed.liltTranslateFrom env d).2.2 = Except.ok r := by
  by_cases hlk : (liltMemories.lookup (jsToString d)).isSome = true
  case neg => exact ⟨none, by simp [Fixed.liltTranslateFrom, hlk]⟩
  case pos =>
  by_cases htrok : (env ReqKind.translate).ok = true
  case neg => exact ⟨none, by simp [Fixed.liltTranslateFrom, hlk, htrok]⟩
  case pos =>
  obtain ⟨j, v, hj, hv⟩ := htr htrok
  have hnt := pollLoop_no_throw env ReqKind.checkTranslate (fun j => j.getProp "status")
      (fun v => !strictEqStr v "ReadyForDownload") Warning.checkTranslateFailed
      (fun n hn => hct n hn) 0 liltMaxPolls (by decide) (by decide)
  cases hL : (Fixed.pollLoop env ReqKind.checkTranslate (fun j => j.getProp "status")
      (fun v => !strictEqStr v "ReadyForDownload") Warning.checkTranslateFailed 0
      liltMaxPolls).2.2 with
  | thrown => exact absurd hL hnt
  | returnedNull =>
    exact ⟨none, by simp [Fixed.liltTranslateFrom, hlk, htrok, hj, hv, hL]⟩
  | finished w =>
    by_cases hdl : (env ReqKind.download).ok = true
    · exact ⟨some ((env ReqKind.download).textBody),
        by simp [Fixed.liltTranslateFrom, hlk, htrok, hj, hv, hL, hdl]⟩
    · exact ⟨none, by simp [Fixed.liltTranslateFrom, hlk, htrok, hj, hv, hL, hdl]⟩

/-- After detection, the backoff variant completes without an exception
when the translate and check-translate responses are readable. -/
theorem liltTranslateFrom_no_throw_backoff (env : Env) (d : JSVal)
    (htr : (env ReqKind.translate).ok = true →
      ∃ j v, (env ReqKind.translate).jsonBody = Except.ok j ∧ extractFirstId j = Except.ok v)
    (hct : ∀ n, (env (ReqKind.checkTranslate n)).ok = true →
      ∃ j w, (env (ReqKind.checkTranslate n)).jsonBody = Except.ok j ∧
        Backoff.checkTranslateResponse j = Except.ok w) :
    ∃ r, (Backoff.liltTranslateFrom env d).2.2 = Except.ok r := by
  by_cases hund : strictEqStr d "und" = true
  case pos => exact ⟨none, by simp [Backoff.liltTranslateFrom, hund]⟩
  case neg =>
  cases hm : liltMemories.lookup (jsToString d) with
  | none => exact ⟨none, by simp [Backoff.liltTranslateFrom, hund, hm]⟩
  | some m =>
    by_cases hm0 : (m != 0) = true
    case neg => exact ⟨none, by simp [Backoff.liltTranslateFrom, hund, hm, hm0]⟩
    case pos =>
    by_cases htrok : (env ReqKind.translate).ok = true
    case neg => exact ⟨none, by simp [Backoff.liltTranslateFrom, hund, hm, hm0, htrok]⟩
    case pos =>
    obtain ⟨j, v, hj, hv⟩ := htr htrok
    have hnt := pollForAux_no_throw env ReqKind.checkTranslate Backoff.checkTranslateResponse
        Phase.checkTranslate (fun n hn => hct n hn) 0 0 liltMaxPolls (by decide)
    cases hL : (Backoff.pollForAux env ReqKind.checkTranslate Backoff.checkTranslateResponse
        Phase.checkTranslate 0 0 liltMaxPolls).2.2 with
    | thrown => exact absurd hL hnt
    | returnedNull =>
      exact ⟨none, by
        simp [Backoff.liltTranslateFrom, Backoff.pollFor, hund, hm, hm0, htrok, hj, hv, hL]⟩
    | finished w =>
      by_cases hw : strictEqStr w "ReadyForDownload" = true
      · by_cases hdl : (env ReqKind.download).ok = true
        · exact ⟨some ((env ReqKind.download).textBody), by
            simp [Backoff.liltTranslateFrom, Backoff.pollFor, hund, hm, hm0, htrok, hj, hv,
              hL, hw, hdl]⟩
        · exact ⟨none, by
            simp [Backoff.liltTranslateFrom, Backoff.pollFor, hund, hm, hm0, htrok, hj, hv,
              hL, hw, hdl]⟩
      · exact ⟨none, by
          simp [Backoff.liltTranslateFrom, Backoff.pollFor, hund, hm, hm0, htrok, hj, hv,
            hL, hw]⟩

/-- C9, counterexample: with every response 2xx but the check-upload
body the empty array `[]`, `json[0].detected_lang` throws a TypeError in
both variants; the exception escapes `liltTranslate` and the click
handler never reaches the Failed state (it aborts while still
Translating). -/
theorem C9_counterexample :
    (Fixed.liltTranslate envEmptyArr).2.2 = Except.error () ∧
    (Backoff.liltTranslate envEmptyArr).2.2 = Except.error () ∧
    (applyClick ⟨Status.Ready, none⟩ (Fixed.liltTranslate envEmptyArr).2.2).status =
      Status.Translating := by
  exact ⟨rfl, rfl, rfl⟩

/-- C9 (amended): for every service behaviour whose successful responses
are well-formed, neither variant lets an exception escape — the result
is always a returned value — and whenever the returned value is null the
click handler sets the state to Failed. -/
theorem C9_theorem (env : Env) (h : WellFormedEnv env) :
    (∃ r, (Fixed.liltTranslate env).2.2 = Except.ok r) ∧
    (∃ r, (Backoff.liltTranslate env).2.2 = Except.ok r) ∧
    ((Fixed.liltTranslate env).2.2 = Except.ok none →
      applyClick ⟨Status.Ready, none⟩ (Fixed.liltTranslate env).2.2 =
        ⟨Status.Failed, none⟩) ∧
    ((Backoff.liltTranslate env).2.2 = Except.ok none →
      applyClick ⟨Status.Ready, none⟩ (Backoff.liltTranslate env).2.2 =
        ⟨Status.Failed, none⟩) := by
  obtain ⟨hu, hcu, htr, hct⟩ := h
  have hctF : ∀ n, (env (ReqKind.checkTranslate n)).ok = true →
      ∃ j v, (env (ReqKind.checkTranslate n)).jsonBody = Except.ok j ∧
        j.getProp "status" = Except.ok v := by
    intro n hn
    obtain ⟨j, v, w, hj, hv, _⟩ := hct n hn
    exact ⟨j, v, hj, hv⟩
  have hctB : ∀ n, (env (ReqKind.checkTranslate n)).ok = true →
      ∃ j w, (env (ReqKind.checkTranslate n)).jsonBody = Except.ok j ∧
        Backoff.checkTranslateResponse j = Except.ok w := by
    intro n hn
    obtain ⟨j, v, w, hj, _, hw⟩ := hct n hn
    exact ⟨j, w, hj, hw⟩
  refine ⟨?_, ?_, fun h1 => by rw [h1]; rfl, fun h2 => by rw [h2]; rfl⟩
  · by_cases hup : (env ReqKind.upload).ok = true
    case neg => exact ⟨none, by simp [Fixed.liltTranslate, hup]⟩
    case pos =>
    obtain ⟨j, v, hj, hv⟩ := hu hup
    have hnt := pollLoop_no_throw env ReqKind.checkUpload extractDetectedLang isLooseNull
        Warning.checkUploadFailed (fun n hn => hcu n hn) 0 liltMaxPolls (by decide) (by decide)
    cases hL : (Fixed.pollLoop env ReqKind.checkUpload extractDetectedLang isLooseNull
        Warning.checkUploadFailed 0 liltMaxPolls).2.2 with
    | thrown => exact absurd hL hnt
    | returnedNull => exact ⟨none, by simp [Fixed.liltTranslate, hup, hj, hv, hL]⟩
    | finished d =>
      obtain ⟨r, hr⟩ := liltTranslateFrom_no_throw_fixed env d htr hctF
      exact ⟨r, by simp [Fixed.liltTranslate, hup, hj, hv, hL, hr]⟩
  · by_cases hup : (env ReqKind.upload).ok = true
    case neg => exact ⟨none, by simp [Backoff.liltTranslate, hup]⟩
    case pos =>
    obtain ⟨j, v, hj, hv⟩ := hu hup
    have hcuB : ∀ n, (env (ReqKind.checkUpload n)).ok = true →
        ∃ jb vb, (env (ReqKind.checkUpload n)).jsonBody = Except.ok jb ∧
          Backoff.checkUploadResponse jb = Except.ok vb := by
      intro n hn
      obtain ⟨jb, vb, hjb, hvb⟩ := hcu n hn
      exact ⟨jb, if isLooseNull vb then JSVal.null else vb,
        hjb, by simp [Backoff.checkUploadResponse, hvb]⟩
    have hnt := pollForAux_no_throw env ReqKind.checkUpload Backoff.checkUploadResponse
        Phase.checkUpload (fun n hn => hcuB n hn) 0 0 liltMaxPolls (by decide)
    cases hL : (Backoff.pollForAux env ReqKind.checkUpload Backoff.checkUploadResponse
        Phase.checkUpload 0 0 liltMaxPolls).2.2 with
    | thrown => exact absurd hL hnt
    | returnedNull =>
      obtain ⟨r, hr⟩ := liltTranslateFrom_no_throw_backoff env JSVal.null htr hctB
      exact ⟨r, by simp [Backoff.liltTranslate, Backoff.pollFor, hup, hj, hv, hL, hr]⟩
    | finished d =>
      obtain ⟨r, hr⟩ := liltTranslateFrom_no_throw_backoff env d htr hctB
      exact ⟨r, by simp [Backoff.liltTranslate, Backoff.pollFor, hup, hj, hv, hL, hr]⟩

/-- C9 witness: the all-successful well-formed service behaviour. -/
theorem C9_witness :
    WellFormedEnv envBackoffHappy ∧
    (∃ r, (Fixed.liltTranslate envBackoffHappy).2.2 = Except.ok r) ∧
    (∃ r, (Backoff.liltTranslate envBackoffHappy).2.2 = Except.ok r) := by
  have hwf : WellFormedEnv envBackoffHappy :=
    ⟨fun _ => ⟨JSVal.obj [("id", JSVal.num 7)], JSVal.num 7, rfl, rfl⟩,
     fun _ _ => ⟨detectBody (JSVal.str "fr"), JSVal.str "fr", rfl, rfl⟩,
     fun _ => ⟨JSVal.arr [JSVal.obj [("id", JSVal.num 9)]], JSVal.num 9, rfl, rfl⟩,
     fun _ _ => ⟨statusArrBody "ReadyForDownload", JSVal.undef,
       JSVal.str "ReadyForDownload", rfl, rfl, rfl⟩⟩
  have h := C9_theorem envBackoffHappy hwf
  exact ⟨hwf, h.1, h.2.1⟩

end TranslateSpec

